import Mathlib

/-!
# Verification of the backend-client inventory tracker and MySQL stream consumer

Shallow embedding of `wirepas_backend_client/management/inventory.py` and
`wirepas_backend_client/api/mysql/handlers.py`.

Conventions of the embedding:
* Python `int` is `Int`; node addresses are `Nat` (unsigned identifiers).
* Python `datetime` instants are rationals (`ℚ`), measured in seconds;
  `datetime` subtraction followed by `.total_seconds()` is plain subtraction.
* A Python `dict` is an insertion-ordered association list; a Python `set`
  is a duplicate-free list (membership is what matters, the list also fixes
  the iteration order that CPython would pick).
* An optional argument or an optional dict key is an `Option`; `none` for a
  dict-valued field means "the key is absent".
* Code that can raise returns `Except PyErr _`; where the source mutates
  `self` before raising, the embedding returns the partially-mutated state
  together with `Option PyErr`.
* `math.inf` used as an "unbounded" frequency target is the `PyFreq.inf`
  constructor.
-/

namespace BackendClient

/-- The Python exceptions the embedded code can raise. -/
inductive PyErr where
  | typeError
  | keyError
  | indexError
  | attributeError
deriving Repr, DecidableEq

/-- Python truthiness of an optional int (`None` and `0` are falsy). -/
def optIntTruthy : Option Int → Bool
  | none => false
  | some n => decide (n ≠ 0)

/-- Python truthiness of an optional list (`None` and `[]` are falsy). -/
def optListTruthy : Option (List Int) → Bool
  | none => false
  | some l => decide (l ≠ [])

/-- Python truthiness of a list of node addresses (a `set`): non-empty. -/
def listTruthy (l : List Nat) : Bool := decide (l ≠ [])

/-- `any(xs)` over a list of ints: some element is truthy (non-zero). -/
def anyTruthy (l : List Int) : Bool := l.any fun x => decide (x ≠ 0)

/-- Python `any(x)` where `x` may be `None`: `any(None)` raises `TypeError`. -/
def pyAnyOpt : Option (List Int) → Except PyErr Bool
  | none => .error .typeError
  | some l => .ok (anyTruthy l)

/-- Python `min` over a list of ints.  The sources only apply it to non-empty
lists (`min([])` would raise `ValueError`); the default is never reached. -/
def pyListMin (l : List Int) : Int := (l.min?).getD 0

/-- Python `max` over a list of ints; call sites guarantee non-emptiness. -/
def pyListMax (l : List Int) : Int := (l.max?).getD 0

/-- First-match lookup in an association list (a Python `dict` access). -/
def alookup {κ α : Type} [DecidableEq κ] : List (κ × α) → κ → Option α
  | [], _ => none
  | (k₀, v) :: rest, k => if k₀ = k then some v else alookup rest k

/-- In-place update of the entry holding key `k` (Python `d[k] = v` for a
key that is already present: insertion order is preserved). -/
def aset {κ α : Type} [DecidableEq κ] : List (κ × α) → κ → α → List (κ × α)
  | [], _, _ => []
  | (k₀, v₀) :: rest, k, v =>
      if k₀ = k then (k₀, v) :: rest else (k₀, v₀) :: aset rest k v

/-- The keys of an association list, in insertion order. -/
def akeys {κ α : Type} (l : List (κ × α)) : List κ := l.map Prod.fst

/-- Python `set.add`: appends iff the element is new (CPython iteration
order of the growing set is abstracted as insertion order). -/
def pySetAdd (s : List Nat) (a : Nat) : List Nat :=
  if a ∈ s then s else s ++ [a]

/-- Python `small.issubset`, i.e. `big.issuperset(small)`. -/
def isSuperset (big small : List Nat) : Bool := small.all fun a => decide (a ∈ big)

/-- Python `sorted` on node addresses. -/
def pySorted (l : List Nat) : List Nat := List.insertionSort (· ≤ ·) l

/-- Python `sorted` on int dictionary keys. -/
def pySortedInt (l : List Int) : List Int := List.insertionSort (· ≤ ·) l

/-- `self._target_frequency`: either the number handed to the constructor or
`math.inf` when the constructor received `None`. -/
inductive PyFreq where
  | fin (n : Int)
  | inf
deriving Repr, DecidableEq

/-- `self._target_frequency < math.inf` (a float comparison in the source). -/
def PyFreq.ltInf : PyFreq → Bool
  | .fin _ => true
  | .inf => false

/-- Python `x >= tf` where `tf` may be `math.inf`. -/
def PyFreq.le (tf : PyFreq) (x : Int) : Bool :=
  match tf with
  | .fin n => decide (n ≤ x)
  | .inf => false

/-- One observation event, as `Inventory.add` stores it.  Each field models
one dict key; `none` means the key is absent from the stored dict. -/
structure Event where
  rss : Option (List Int)
  otap : Option (List Int)
  otap_max : Option Int
  otap_min : Option Int
deriving Repr, DecidableEq

/-- The per-node record `self._index[node_address]`. -/
structure NodeRecord where
  last_seen : Option Int
  events : List Event
  count : Nat
deriving Repr, DecidableEq

/-- The state of an `Inventory` object (the fields the claims touch). -/
structure Inventory where
  target_nodes : List Nat
  target_otap_sequence : Option Int
  target_frequency : PyFreq
  nodes : List Nat
  index : List (Nat × NodeRecord)
  start : Option ℚ
  deadline : Option ℚ
  finish : Option ℚ
deriving Repr, DecidableEq

/-- `otap_min` as computed at the top of `Inventory.add`: set only when the
sequence is truthy (guards `min` against empty/absent OTAP data). -/
def otapMinOf (otap_sequence : Option (List Int)) : Option Int :=
  if optListTruthy otap_sequence then some (pyListMin (otap_sequence.getD [])) else none

/-- `otap_max` as computed at the top of `Inventory.add`. -/
def otapMaxOf (otap_sequence : Option (List Int)) : Option Int :=
  if optListTruthy otap_sequence then some (pyListMax (otap_sequence.getD [])) else none

/-- The `# creates an event` block of `Inventory.add`: the if/elif/elif/else
chain classifying the observation, including the `TypeError` that `any(None)`
raises. -/
def classifyEvent (rss otap_sequence : Option (List Int)) : Except PyErr Event :=
  let otap_min := otapMinOf otap_sequence
  let otap_max := otapMaxOf otap_sequence
  if optIntTruthy otap_min && optIntTruthy otap_max then
    match pyAnyOpt rss with
    | .error e => .error e
    | .ok true =>
        .ok { rss := rss, otap := otap_sequence,
              otap_max := some (pyListMax (otap_sequence.getD [])),
              otap_min := some (pyListMin (otap_sequence.getD [])) }
    | .ok false => classifyEventRest rss otap_sequence
  else classifyEventRest rss otap_sequence
where
  /-- The `elif any(rss) / elif any(otap_sequence) / else` tail of the chain
  (re-evaluating `any(rss)` exactly as the source does on fall-through). -/
  classifyEventRest (rss otap_sequence : Option (List Int)) : Except PyErr Event :=
    match pyAnyOpt rss with
    | .error e => .error e
    | .ok true => .ok { rss := rss, otap := none, otap_max := none, otap_min := none }
    | .ok false =>
        match pyAnyOpt otap_sequence with
        | .error e => .error e
        | .ok true =>
            .ok { rss := none, otap := otap_sequence,
                  otap_max := some (pyListMax (otap_sequence.getD [])),
                  otap_min := some (pyListMin (otap_sequence.getD [])) }
        | .ok false =>
            .ok { rss := rss, otap := otap_sequence, otap_max := none, otap_min := none }

/-- `Inventory.add`.  Returns the state as mutated up to the point where the
call returned or raised, together with the exception if one was raised:
`self._nodes.add` happens before classification, the index update after it. -/
def Inventory.add (inv : Inventory) (node_address : Nat)
    (rss otap_sequence : Option (List Int)) (timestamp : Option Int) :
    Inventory × Option PyErr :=
  let inv₁ := { inv with nodes := pySetAdd inv.nodes node_address }
  match classifyEvent rss otap_sequence with
  | .error e => (inv₁, some e)
  | .ok event =>
      match alookup inv₁.index node_address with
      | some r =>
          let r' : NodeRecord :=
            { r with count := r.count + 1, last_seen := timestamp,
                     events := r.events ++ [event] }
          ({ inv₁ with index := aset inv₁.index node_address r' }, none)
      | none =>
          let r' : NodeRecord := { last_seen := timestamp, events := [event], count := 1 }
          ({ inv₁ with index := inv₁.index ++ [(node_address, r')] }, none)

/-- `Inventory.elapsed` (property): `runtime = self._finish or utcnow()`,
then `(runtime - self._start).total_seconds()`.  When `self._start` is still
`None` the subtraction raises `TypeError`. -/
def Inventory.elapsed (inv : Inventory) (now : ℚ) : Except PyErr ℚ :=
  match inv.start with
  | none => .error .typeError
  | some s => .ok ((inv.finish.getD now) - s)

/-- `Inventory.until(deadline)`: seconds from `now` to the deadline. -/
def Inventory.untilDeadline (deadline now : ℚ) : ℚ := deadline - now

/-- `Inventory.is_out_of_time`: `until(self.deadline) <= 0`.  With no
deadline set, `deadline - now` raises `TypeError`. -/
def Inventory.is_out_of_time (inv : Inventory) (now : ℚ) : Except PyErr Bool :=
  match inv.deadline with
  | none => .error .typeError
  | some d => .ok (decide (Inventory.untilDeadline d now ≤ 0))

/-- `Inventory.is_complete`.  The failure branch formats `self.elapsed` into
a log record before returning, which raises `TypeError` when `self._start`
is unset; `now` stands for `datetime.utcnow()` read inside `elapsed`. -/
def Inventory.is_complete (inv : Inventory) (now : ℚ) : Except PyErr Bool :=
  if !listTruthy inv.target_nodes || inv.target_frequency.ltInf then .ok false
  else if isSuperset inv.nodes inv.target_nodes then
    if !optIntTruthy inv.target_otap_sequence then .ok true else .ok false
  else
    match inv.elapsed now with
    | .error e => .error e
    | .ok _ => .ok false

/-- One node's check inside `Inventory.otaped_nodes`:
`events[-1]["otap_min"] == target or events[-1]["otap_max"] == target`,
with a `KeyError` on either lookup caught and treated as "not otaped". -/
def eventOtaped (target : Option Int) (ev : Event) : Bool :=
  match ev.otap_min with
  | none => false
  | some mn =>
      if decide (some mn = target) then true
      else
        match ev.otap_max with
        | none => false
        | some mx => decide (some mx = target)

/-- The loop of `Inventory.otaped_nodes` over `self._index.items()`:
`events[-1]` raises `IndexError` (not caught: the `except` clause only
catches `KeyError`) when a record's event list is empty. -/
def otapedNodesAux (target : Option Int) : List (Nat × NodeRecord) → Except PyErr (List Nat)
  | [] => .ok []
  | (a, r) :: rest =>
      match r.events.getLast? with
      | none => .error .indexError
      | some ev =>
          match otapedNodesAux target rest with
          | .error e => .error e
          | .ok s => .ok (if eventOtaped target ev then a :: s else s)

/-- `Inventory.otaped_nodes` (property): the set of nodes whose latest event
carries the target otap sequence. -/
def Inventory.otaped_nodes (inv : Inventory) : Except PyErr (List Nat) :=
  otapedNodesAux inv.target_otap_sequence inv.index

/-- `Inventory.is_otaped`.  Note the guard compares `self._target_otap_sequence
is None` (not truthiness); the failure branch formats `self.elapsed`. -/
def Inventory.is_otaped (inv : Inventory) (now : ℚ) : Except PyErr Bool :=
  if !listTruthy inv.target_nodes || decide (inv.target_otap_sequence = none) then .ok false
  else
    match inv.otaped_nodes with
    | .error e => .error e
    | .ok ons =>
        if isSuperset ons inv.target_nodes then .ok true
        else
          match inv.elapsed now with
          | .error e => .error e
          | .ok _ => .ok false

/-- The per-node value computed in the loops of `Inventory.frequency` and
`Inventory.frequency_by_value`: `events[-1]["otap_max"]` when the target
otap sequence is truthy (raising `IndexError` on an empty event list and
`KeyError` on a missing key), `count` otherwise. -/
def freqValue (target_otap : Option Int) (r : NodeRecord) : Except PyErr Int :=
  if optIntTruthy target_otap then
    match r.events.getLast? with
    | none => .error .indexError
    | some ev =>
        match ev.otap_max with
        | none => .error .keyError
        | some v => .ok v
  else .ok (r.count : Int)

/-- The `for node in sorted(nodes)` loop of `Inventory.frequency`, building
the dict in iteration order. -/
def freqLoop (target_otap : Option Int) (index : List (Nat × NodeRecord)) :
    List Nat → Except PyErr (List (Nat × Int))
  | [] => .ok []
  | a :: rest =>
      match alookup index a with
      | none => .error .keyError
      | some r =>
          match freqValue target_otap r with
          | .error e => .error e
          | .ok v =>
              match freqLoop target_otap index rest with
              | .error e => .error e
              | .ok l => .ok ((a, v) :: l)

/-- `Inventory._account_for_target_nodes`: appends `node: 0` for every target
node missing from the dict (iterating the target set; a no-op when the
target set is empty, exactly as the `if self._target_nodes:` guard). -/
def accountForTargetNodes (target_nodes : List Nat) (d : List (Nat × Int)) :
    List (Nat × Int) :=
  target_nodes.foldl (fun d node => if (alookup d node).isSome then d else d ++ [(node, 0)]) d

/-- `Inventory.frequency`. -/
def Inventory.frequency (inv : Inventory) : Except PyErr (List (Nat × Int)) :=
  match freqLoop inv.target_otap_sequence inv.index (pySorted (akeys inv.index)) with
  | .error e => .error e
  | .ok d => .ok (accountForTargetNodes inv.target_nodes d)

/-- `Inventory._filter_dict`: keep the entries whose key is a target node,
in the dict's iteration order. -/
def filterDict (target_nodes : List Nat) (d : List (Nat × Int)) : List (Nat × Int) :=
  d.filter fun p => decide (p.1 ∈ target_nodes)

/-- `Inventory.is_frequency_reached`.  The `self._target_frequency is None`
half of the guard is unreachable: the constructor replaces `None` by
`math.inf`, which the state type `PyFreq` builds in. -/
def Inventory.is_frequency_reached (inv : Inventory) : Except PyErr Bool :=
  if !listTruthy inv.target_nodes then .ok false
  else
    match inv.frequency with
    | .error e => .error e
    | .ok freq =>
        let freq := if listTruthy inv.target_nodes then filterDict inv.target_nodes freq else freq
        .ok (freq.all fun p => inv.target_frequency.le p.2)

/-- `"frequency_" + "{0:03}".format(key)` (modulo the literal braces): the
value zero-padded to width 3, the sign included in the width. -/
def py03d (v : Int) : String :=
  let mag := toString v.natAbs
  let width : Nat := if v < 0 then 2 else 3
  let zeros := String.mk (List.replicate (width - mag.length) '0')
  (if v < 0 then "-" else "") ++ zeros ++ mag

/-- The grouping step of `Inventory.frequency_by_value`:
`frequency.setdefault(value, set()).add(node)` in effect. -/
def fbvAdd (acc : List (Int × List Nat)) (v : Int) (a : Nat) : List (Int × List Nat) :=
  match alookup acc v with
  | none => acc ++ [(v, [a])]
  | some s => aset acc v (if a ∈ s then s else s ++ [a])

/-- The sorted-node loop of `Inventory.frequency_by_value` (the local
`max_value` of the source is dead code and not modelled). -/
def fbvLoop (target_otap : Option Int) (index : List (Nat × NodeRecord)) :
    List Nat → List (Int × List Nat) → Except PyErr (List (Int × List Nat))
  | [], acc => .ok acc
  | a :: rest, acc =>
      match alookup index a with
      | none => .error .keyError
      | some r =>
          match freqValue target_otap r with
          | .error e => .error e
          | .ok v => fbvLoop target_otap index rest (fbvAdd acc v a)

/-- `Inventory.frequency_by_value`: group nodes by frequency value, then
emit the groups keyed by the zero-padded label in ascending value order. -/
def Inventory.frequency_by_value (inv : Inventory) :
    Except PyErr (List (String × List Nat)) :=
  match fbvLoop inv.target_otap_sequence inv.index (pySorted (akeys inv.index)) [] with
  | .error e => .error e
  | .ok freq =>
      .ok ((pySortedInt (freq.map Prod.fst)).map fun k =>
        ("frequency_" ++ py03d k, (alookup freq k).getD []))

/-!
## MySQL stream consumer (`api/mysql/handlers.py`)
-/

/-- Modelled from the spec: the WorkItem kinds.  The message classes
themselves (`wirepas_backend_client.messages`) are not part of the staged
sources; per the spec they form "a closed tagged-union over WorkItem kinds",
so `isinstance(message, K)` is equality of kinds.  `other` stands for an
item of an unmatched kind reaching the queue. -/
inductive MessageKind where
  | advertiser
  | bootDiagnostics
  | neighborDiagnostics
  | nodeDiagnostics
  | testNW
  | trafficDiagnostics
  | diagnostics
  | other
deriving Repr, DecidableEq

/-- The backend write operations `MySQLObserver._map_message` can issue,
one per `mysql.put_*` call. -/
inductive Write where
  | received_packets
  | diagnostics
  | advertiser
  | testnw_measurements
  | boot_diagnostics
  | neighbor_diagnostics
  | node_diagnostics
  | traffic_diagnostics
deriving Repr, DecidableEq

/-- `MySQLObserver._map_message`: the generic `put_to_received_packets`
first, then the `isinstance` chain, transcribed test by test in source
order; the writes are listed in the order they are issued. -/
def map_message (m : MessageKind) : List Write :=
  Write.received_packets ::
  (if m = MessageKind.diagnostics then [Write.diagnostics]
   else if m = MessageKind.advertiser then [Write.advertiser]
   else if m = MessageKind.testNW then [Write.testnw_measurements]
   else if m = MessageKind.bootDiagnostics then [Write.boot_diagnostics]
   else if m = MessageKind.neighborDiagnostics then [Write.neighbor_diagnostics]
   else if m = MessageKind.nodeDiagnostics then [Write.node_diagnostics]
   else if m = MessageKind.trafficDiagnostics then [Write.traffic_diagnostics]
   else [])

/-- The fixed kind-to-handler table the spec describes, one kind-specific
write per known kind and nothing for an unmatched kind. -/
def kindTable : MessageKind → List Write
  | .advertiser => [Write.advertiser]
  | .bootDiagnostics => [Write.boot_diagnostics]
  | .neighborDiagnostics => [Write.neighbor_diagnostics]
  | .nodeDiagnostics => [Write.node_diagnostics]
  | .testNW => [Write.testnw_measurements]
  | .trafficDiagnostics => [Write.traffic_diagnostics]
  | .diagnostics => [Write.diagnostics]
  | .other => []

/-- Modelled from the spec: a spawned worker process, of which the
supervisor can only observe liveness. -/
structure PyProcess where
  alive : Bool
deriving Repr, DecidableEq

/-- The value the source stores in its `workers` dict:
`multiprocessing.Process(target=work, args=...).start()`.  Python's
`Process.start()` returns `None`. -/
def processStartResult : Option PyProcess := none

/-- The spawn loop of `MySQLObserver.pool_on_data_received`:
`for pseq in range(1, n_workers): workers[pseq] = Process(...).start()`. -/
def spawnedWorkers (n_workers : Nat) : List (Nat × Option PyProcess) :=
  (List.range' 1 (n_workers - 1)).map fun pseq => (pseq, processStartResult)

/-- `worker.is_alive()`: on the `None` the source stored, attribute access
raises `AttributeError`. -/
def pyIsAlive : Option PyProcess → Except PyErr Bool
  | none => .error .attributeError
  | some p => .ok p.alive

/-- One liveness pass of `MySQLObserver._wait_for_exit` over the workers
dict (the body of `for seq, worker in workers.items()`): returns whether
`exit_signal` was set by the pass. -/
def superviseCheck : List (Nat × Option PyProcess) → Except PyErr Bool
  | [] => .ok false
  | (_, w) :: rest =>
      match pyIsAlive w with
      | .error e => .error e
      | .ok true => superviseCheck rest
      | .ok false => .ok true

/-- One iteration of the `_wait_for_exit` loop once the sleep returns:
nothing is checked when the workers dict is falsy. -/
def waitForExitPoll (workers : List (Nat × Option PyProcess)) : Except PyErr Bool :=
  if workers.isEmpty then .ok false else superviseCheck workers

/-!
## Characterisation of `Inventory.add`
-/

/-- When `Inventory.add` completes without raising: `rss` must be a real
list, and either it holds a truthy sample or the otap argument is a list
too (otherwise the chain reaches `any(None)`). -/
def acceptedArgs (rss otap_sequence : Option (List Int)) : Bool :=
  match rss with
  | none => false
  | some l => anyTruthy l || decide (otap_sequence ≠ none)

/-- The event `Inventory.add` stores on success, classified — as the
corrected claim C1 states — by Python truthiness of the data rather than
by which arguments were supplied: the both-samples shape needs a non-empty
otap sequence whose min and max are non-zero *and* a truthy rss sample;
otherwise a truthy rss sample gives the RSS-only shape; otherwise a truthy
otap element gives the OTAP-only shape; otherwise both keys are stored
with no derived min/max. -/
def eventSpec (rss otap_sequence : Option (List Int)) : Event :=
  let l := rss.getD []
  let lo := otap_sequence.getD []
  if optListTruthy otap_sequence && decide (pyListMin lo ≠ 0) &&
      decide (pyListMax lo ≠ 0) && anyTruthy l then
    { rss := rss, otap := otap_sequence,
      otap_max := some (pyListMax lo), otap_min := some (pyListMin lo) }
  else if anyTruthy l then
    { rss := rss, otap := none, otap_max := none, otap_min := none }
  else if anyTruthy lo then
    { rss := none, otap := otap_sequence,
      otap_max := some (pyListMax lo), otap_min := some (pyListMin lo) }
  else
    { rss := rss, otap := otap_sequence, otap_max := none, otap_min := none }

/-!
## Derived definitions and concrete states used by the theorems
-/

/-- A freshly-constructed inventory: no targets, unbounded frequency. -/
def inv0 : Inventory :=
  { target_nodes := [], target_otap_sequence := none, target_frequency := .inf,
    nodes := [], index := [], start := none, deadline := none, finish := none }

/-- An event of the OTAP-only shape with `otap_min = mn`, `otap_max = mx`. -/
def evOtap (mn mx : Int) : Event :=
  { rss := none, otap := some [mn, mx], otap_max := some mx, otap_min := some mn }

/-- An event of the RSS-only shape. -/
def evRss : Event := { rss := some [1], otap := none, otap_max := none, otap_min := none }

/-- A node record with `count = c` and the given event history. -/
def recOf (c : Nat) (evs : List Event) : NodeRecord :=
  { last_seen := none, events := evs, count := c }

/-- All target nodes observed, unbounded frequency, but the otap target is
set to `0`, which the source's truthiness test treats as "no otap target". -/
def cex2 : Inventory :=
  { inv0 with target_nodes := [1], target_otap_sequence := some 0, nodes := [1] }

/-- The arguments of one `Inventory.add` call. -/
structure AddCall where
  addr : Nat
  rss : Option (List Int)
  otap_sequence : Option (List Int)
  timestamp : Option Int
deriving Repr, DecidableEq

/-- Run a sequence of `add` calls, keeping the (partially mutated) state
also when a call raises — as the Python caller that catches or ignores the
exception would observe it. -/
def runAdds (inv : Inventory) : List AddCall → Inventory
  | [] => inv
  | c :: cs => runAdds (inv.add c.addr c.rss c.otap_sequence c.timestamp).1 cs

/-- How many calls of the sequence address `a` and complete (are accepted). -/
def acceptedFor (a : Nat) (calls : List AddCall) : Nat :=
  (calls.filter fun c => decide (c.addr = a) && acceptedArgs c.rss c.otap_sequence).length

/-- The `count` field of the record for `a`, `0` when there is none. -/
def countOf (inv : Inventory) (a : Nat) : Nat :=
  ((alookup inv.index a).elim 0 NodeRecord.count)

/-- The call sequence `C7` is instantiated on: three calls to node 1 of
which the second is rejected (`rss=None`), plus a call to node 2. -/
def c7calls : List AddCall :=
  [{ addr := 1, rss := some [1], otap_sequence := none, timestamp := none },
   { addr := 1, rss := none, otap_sequence := some [4], timestamp := none },
   { addr := 1, rss := some [0], otap_sequence := some [5], timestamp := some 9 },
   { addr := 2, rss := some [1], otap_sequence := none, timestamp := none }]

/-- Bool invariant of reachable sessions: every record's latest event
exists, and carries `otap_min` whenever it carries `otap_max` (every shape
`add` stores has both derived fields or neither). -/
def latestWellFormed (inv : Inventory) : Bool :=
  inv.index.all fun p =>
    match p.2.events.getLast? with
    | none => false
    | some ev => !ev.otap_max.isSome || ev.otap_min.isSome

/-- The spec's own scenario: targets `{1, 2}`, target otap 7, node 1's
latest event with `otap_max = 7`, node 2's with `otap_min = 7`. -/
def inv3 : Inventory :=
  { inv0 with target_nodes := [1, 2], target_otap_sequence := some 7, nodes := [1, 2],
              index := [(1, recOf 1 [evOtap 3 7]), (2, recOf 1 [evOtap 7 9])] }

/-- The frequency value the spec ascribes to an observed node: the latest
event's `otap_max` when the otap target is truthy, the observation count
otherwise (`0` for a node with no record). -/
def claimFreqVal (inv : Inventory) (a : Nat) : Int :=
  match alookup inv.index a with
  | none => 0
  | some r =>
      if optIntTruthy inv.target_otap_sequence then
        ((r.events.getLast?).bind Event.otap_max).getD 0
      else (r.count : Int)

/-- Every record has a latest event. -/
def allLatestSome (inv : Inventory) : Bool :=
  inv.index.all fun p => (p.2.events.getLast?).isSome

/-- Every record's latest event carries `otap_max`. -/
def latestHasOtapMax (inv : Inventory) : Bool :=
  inv.index.all fun p =>
    match p.2.events.getLast? with
    | none => false
    | some ev => ev.otap_max.isSome

/-- Some record's latest event lacks the `otap_max` key. -/
def someLatestLacksOtapMax (inv : Inventory) : Bool :=
  inv.index.any fun p =>
    match p.2.events.getLast? with
    | none => false
    | some ev => ev.otap_max.isNone

/-- The state of the C4 counterexample. -/
def cex4 : Inventory :=
  { inv0 with target_nodes := [3, 5], target_otap_sequence := some 0, nodes := [5],
              index := [(5, recOf 2 [evOtap 9 9])] }

/-- The state `C4_frequency`'s witness instantiates it on: observed nodes 5
and 2 with otap-carrying latest events, otap target 7, targets `{3, 5}`. -/
def invW4 : Inventory :=
  { inv0 with target_nodes := [3, 5], target_otap_sequence := some 7, nodes := [5, 2],
              index := [(5, recOf 2 [evOtap 3 7]), (2, recOf 1 [evOtap 7 9])] }

/-- The state of the C10 counterexample: otap target truthy, one observed
node whose only event is RSS-only, and an *empty* target-node set. -/
def cex10 : Inventory :=
  { inv0 with target_nodes := [], target_otap_sequence := some 7, nodes := [4],
              index := [(4, recOf 1 [evRss])] }

/-- The state the C10 witness instantiates the theorem on: as `cex10` but
with node 4 as a target, so the `KeyError` does propagate. -/
def cex10b : Inventory := { cex10 with target_nodes := [4] }

/-- The state `C8_witness` evaluates `is_out_of_time` on: deadline 10. -/
def invD : Inventory := { inv0 with deadline := some 10 }

theorem classifyEvent_eq (rss otap_sequence : Option (List Int)) :
    classifyEvent rss otap_sequence =
      if acceptedArgs rss otap_sequence then .ok (eventSpec rss otap_sequence)
      else .error .typeError := by
  cases rss with
  | none =>
      cases h : (optIntTruthy (otapMinOf otap_sequence) && optIntTruthy (otapMaxOf otap_sequence)) <;>
        simp [classifyEvent, classifyEvent.classifyEventRest, pyAnyOpt, acceptedArgs, h]
  | some l =>
      cases otap_sequence with
      | none =>
          cases ha : anyTruthy l <;>
            simp [classifyEvent, classifyEvent.classifyEventRest, pyAnyOpt, acceptedArgs,
              eventSpec, otapMinOf, otapMaxOf, optListTruthy, optIntTruthy, ha]
      | some lo =>
          cases lo with
          | nil =>
              cases ha : anyTruthy l <;>
                simp [classifyEvent, classifyEvent.classifyEventRest, pyAnyOpt, acceptedArgs,
                  eventSpec, otapMinOf, otapMaxOf, optListTruthy, optIntTruthy, ha,
                  show anyTruthy [] = false from rfl]
          | cons x xs =>
              by_cases hmn : pyListMin (x :: xs) = 0 <;>
              by_cases hmx : pyListMax (x :: xs) = 0 <;>
              cases ha : anyTruthy l <;>
              cases ho : anyTruthy (x :: xs) <;>
                simp [classifyEvent, classifyEvent.classifyEventRest, pyAnyOpt, acceptedArgs,
                  eventSpec, otapMinOf, otapMaxOf, optListTruthy, optIntTruthy, ha, ho, hmn, hmx]

theorem add_snd (inv : Inventory) (a : Nat) (rss otap_sequence : Option (List Int))
    (ts : Option Int) :
    (inv.add a rss otap_sequence ts).2 =
      if acceptedArgs rss otap_sequence then none else some PyErr.typeError := by
  unfold Inventory.add
  rw [classifyEvent_eq]
  by_cases h : acceptedArgs rss otap_sequence = true
  · cases halo : alookup inv.index a <;> simp [h, halo]
  · simp at h
    simp [h]

theorem add_nodes (inv : Inventory) (a : Nat) (rss otap_sequence : Option (List Int))
    (ts : Option Int) :
    (inv.add a rss otap_sequence ts).1.nodes = pySetAdd inv.nodes a := by
  unfold Inventory.add
  rw [classifyEvent_eq]
  by_cases h : acceptedArgs rss otap_sequence = true
  · cases halo : alookup inv.index a <;> simp [h, halo]
  · simp at h
    simp [h]

theorem add_index (inv : Inventory) (a : Nat) (rss otap_sequence : Option (List Int))
    (ts : Option Int) :
    (inv.add a rss otap_sequence ts).1.index =
      if acceptedArgs rss otap_sequence then
        match alookup inv.index a with
        | some r => aset inv.index a
            { r with count := r.count + 1, last_seen := ts,
                     events := r.events ++ [eventSpec rss otap_sequence] }
        | none => inv.index ++
            [(a, { last_seen := ts, events := [eventSpec rss otap_sequence], count := 1 })]
      else inv.index := by
  unfold Inventory.add
  rw [classifyEvent_eq]
  by_cases h : acceptedArgs rss otap_sequence = true
  · cases halo : alookup inv.index a <;> simp [h, halo]
  · simp at h
    simp [h]

/-!
## Association-list lemmas
-/

theorem alookup_aset_eq {α : Type} [DecidableEq Nat] (l : List (Nat × α)) (k : Nat) (v w : α)
    (h : alookup l k = some w) : alookup (aset l k v) k = some v := by
  induction l with
  | nil => simp [alookup] at h
  | cons p rest ih =>
      by_cases hk : p.1 = k
      · simp [aset, alookup, hk]
      · simp [alookup, hk] at h
        simp [aset, alookup, hk, ih h]

theorem alookup_aset_ne {α : Type} (l : List (Nat × α)) (k k' : Nat) (v : α)
    (h : k' ≠ k) : alookup (aset l k v) k' = alookup l k' := by
  induction l with
  | nil => simp [aset]
  | cons p rest ih =>
      by_cases hk : p.1 = k
      · simp [aset, alookup, hk, Ne.symm h]
      · simp [aset, alookup, hk, ih]

theorem alookup_append {α : Type} (l l' : List (Nat × α)) (k : Nat) :
    alookup (l ++ l') k = ((alookup l k).rec (alookup l' k) fun v => some v) := by
  induction l with
  | nil => simp [alookup]
  | cons p rest ih =>
      by_cases hk : p.1 = k
      · simp [alookup, hk]
      · simp [alookup, hk, ih]

theorem alookup_mem {α : Type} (l : List (Nat × α)) (k : Nat) (v : α)
    (h : alookup l k = some v) : (k, v) ∈ l := by
  induction l with
  | nil => simp [alookup] at h
  | cons p rest ih =>
      cases p with
      | mk k₀ v₀ =>
          by_cases hk : k₀ = k
          · simp [alookup, hk] at h
            subst hk
            subst h
            exact List.mem_cons_self _ _
          · simp [alookup, hk] at h
            exact List.mem_cons_of_mem _ (ih h)

theorem alookup_isSome_iff {α : Type} (l : List (Nat × α)) (k : Nat) :
    (alookup l k).isSome ↔ k ∈ akeys l := by
  induction l with
  | nil => simp [alookup, akeys]
  | cons p rest ih =>
      by_cases hk : p.1 = k
      · simp [alookup, akeys, hk]
      · simp [alookup, akeys, hk, ih, Ne.symm hk]

theorem alookup_eq_some_of_nodup {α : Type} (l : List (Nat × α)) (k : Nat) (v : α)
    (hnd : (akeys l).Nodup) (h : (k, v) ∈ l) : alookup l k = some v := by
  induction l with
  | nil => simp at h
  | cons p rest ih =>
      have h0 : akeys (p :: rest) = p.1 :: akeys rest := rfl
      rw [h0] at hnd
      have hnotmem := (List.nodup_cons.mp hnd).1
      have hnd2 := (List.nodup_cons.mp hnd).2
      rcases List.mem_cons.mp h with h1 | h1
      · rw [← h1]
        simp [alookup]
      · have hk : p.1 ≠ k := by
          intro he
          apply hnotmem
          rw [he]
          simpa [akeys] using List.mem_map_of_mem Prod.fst h1
        simp [alookup, hk]
        exact ih hnd2 h1

/-!
## C1: the event shape stored by `add`
-/

/-- C1 counterexample.  First input: RSS supplied (a one-element list whose
sample is `0`), OTAP absent — the claim promises an RSS-only event and no
failure when OTAP is absent, but the call raises `TypeError` and stores
nothing.  Second input: RSS and a non-empty OTAP sequence `[0, 1]` both
supplied — the claim promises the both-samples shape with derived
`otap_min`/`otap_max`, but the stored event is RSS-only with no derived
fields (`min([0,1]) = 0` is falsy). -/
theorem C1_counterexample :
    ((inv0.add 1 (some [0]) none none).2 = some PyErr.typeError ∧
     (inv0.add 1 (some [0]) none none).1.index = []) ∧
    ((inv0.add 1 (some [1]) (some [0, 1]) none).2 = none ∧
     alookup (inv0.add 1 (some [1]) (some [0, 1]) none).1.index 1 =
       some { last_seen := none,
              events := [{ rss := some [1], otap := none, otap_max := none, otap_min := none }],
              count := 1 }) :=
  ⟨⟨rfl, rfl⟩, ⟨rfl, rfl⟩⟩

/-- C1 (amended): `add` completes iff `rss` is an actual list that either
contains a truthy sample or is accompanied by an actual (possibly empty)
otap list; on completion the appended event is `eventSpec`, i.e. the shape
is selected by truthiness of the data (non-zero otap min/max and a non-zero
rss sample), not by which arguments were supplied, and `otap_min`/`otap_max`
are stored exactly in the two otap-carrying shapes; on failure the node
record is untouched. -/
theorem C1_add_event_shape (inv : Inventory) (a : Nat)
    (rss otap_sequence : Option (List Int)) (ts : Option Int) :
    (acceptedArgs rss otap_sequence = true ↔
       ∃ l, rss = some l ∧ (anyTruthy l = true ∨ otap_sequence ≠ none)) ∧
    ((inv.add a rss otap_sequence ts).2 = none ↔ acceptedArgs rss otap_sequence = true) ∧
    (acceptedArgs rss otap_sequence = true →
      alookup (inv.add a rss otap_sequence ts).1.index a =
        some { last_seen := ts,
               events := ((alookup inv.index a).elim [] NodeRecord.events) ++
                           [eventSpec rss otap_sequence],
               count := ((alookup inv.index a).elim 0 NodeRecord.count) + 1 }) ∧
    (acceptedArgs rss otap_sequence = false →
      (inv.add a rss otap_sequence ts).2 = some PyErr.typeError ∧
      (inv.add a rss otap_sequence ts).1.index = inv.index) := by
  refine ⟨?_, ?_, ?_, ?_⟩
  · cases rss with
    | none => simp [acceptedArgs]
    | some l => cases h : anyTruthy l <;> simp [acceptedArgs, h]
  · rw [add_snd]
    cases h : acceptedArgs rss otap_sequence <;> simp [h]
  · intro h
    rw [add_index]
    cases halo : alookup inv.index a with
    | some r =>
        simp only [h, if_true, halo]
        exact alookup_aset_eq _ _ _ _ halo
    | none =>
        simp only [h, if_true, halo]
        rw [alookup_append, halo]
        simp [alookup]
  · intro h
    rw [add_snd, add_index]
    simp [h]

/-!
## C9: `add` with the default `rss=None`
-/

/-- C9: a call with `rss = None` always raises `TypeError` inside the
classification chain — after the address has been added to the observed
set, before any index update — and conversely a call that completes was
given a real list for `rss`. -/
theorem C9_add_requires_rss (inv : Inventory) (a : Nat)
    (otap_sequence : Option (List Int)) (ts : Option Int) :
    (inv.add a none otap_sequence ts).2 = some PyErr.typeError ∧
    (inv.add a none otap_sequence ts).1.nodes = pySetAdd inv.nodes a ∧
    (inv.add a none otap_sequence ts).1.index = inv.index ∧
    (∀ rss, (inv.add a rss otap_sequence ts).2 = none → rss ≠ none) := by
  have hacc : acceptedArgs none otap_sequence = false := rfl
  refine ⟨?_, add_nodes inv a none otap_sequence ts, ?_, ?_⟩
  · rw [add_snd, hacc]
    simp
  · rw [add_index, hacc]
    simp
  · intro rss h hn
    subst hn
    rw [add_snd, hacc] at h
    simp at h

/-- C9 witness: the first conjuncts at a concrete state (node 7, an otap
sequence but no rss), and the completion conjunct at a concrete completing
call. -/
theorem C9_add_requires_rss_witness :
    (inv0.add 7 none (some [5]) (some 3)).2 = some PyErr.typeError ∧
    (inv0.add 7 none (some [5]) (some 3)).1.nodes = pySetAdd [] 7 ∧
    (inv0.add 7 none (some [5]) (some 3)).1.index = [] ∧
    ((inv0.add 7 (some [1]) (some [5]) (some 3)).2 = none →
      (some [(1 : Int)] : Option (List Int)) ≠ none) := by
  have h := C9_add_requires_rss inv0 7 (some [5]) (some 3)
  exact ⟨h.1, h.2.1, h.2.2.1, h.2.2.2 (some [1])⟩

/-!
## C7: `count` equals the number of accepted `add` calls
-/

theorem add_index_acc (inv : Inventory) (a : Nat) (rss otap_sequence : Option (List Int))
    (ts : Option Int) (hacc : acceptedArgs rss otap_sequence = true) :
    (inv.add a rss otap_sequence ts).1.index =
      match alookup inv.index a with
      | some r => aset inv.index a
          { r with count := r.count + 1, last_seen := ts,
                   events := r.events ++ [eventSpec rss otap_sequence] }
      | none => inv.index ++
          [(a, { last_seen := ts, events := [eventSpec rss otap_sequence], count := 1 })] := by
  rw [add_index, hacc]
  rfl

theorem add_index_rej (inv : Inventory) (a : Nat) (rss otap_sequence : Option (List Int))
    (ts : Option Int) (hacc : acceptedArgs rss otap_sequence = false) :
    (inv.add a rss otap_sequence ts).1.index = inv.index := by
  rw [add_index, hacc]
  rfl

theorem countOf_add_self (inv : Inventory) (a : Nat) (rss otap_sequence : Option (List Int))
    (ts : Option Int) (hacc : acceptedArgs rss otap_sequence = true) :
    countOf (inv.add a rss otap_sequence ts).1 a = countOf inv a + 1 ∧
    alookup (inv.add a rss otap_sequence ts).1.index a ≠ none := by
  unfold countOf
  rw [add_index_acc inv a rss otap_sequence ts hacc]
  cases halo : alookup inv.index a with
  | some r =>
      rw [alookup_aset_eq _ _ _ _ halo]
      simp [halo]
  | none =>
      rw [alookup_append, halo]
      simp [alookup]

theorem countOf_add_other (inv : Inventory) (a a' : Nat) (rss otap_sequence : Option (List Int))
    (ts : Option Int) (hne : a' ≠ a) :
    alookup (inv.add a' rss otap_sequence ts).1.index a = alookup inv.index a := by
  by_cases hacc : acceptedArgs rss otap_sequence = true
  · rw [add_index_acc inv a' rss otap_sequence ts hacc]
    cases halo : alookup inv.index a' with
    | some r => rw [alookup_aset_ne _ _ _ _ (Ne.symm hne)]
    | none =>
        rw [alookup_append]
        cases h2 : alookup inv.index a with
        | none => simp [alookup, hne]
        | some r => simp
  · simp at hacc
    rw [add_index_rej inv a' rss otap_sequence ts hacc]

theorem runAdds_count (calls : List AddCall) (inv : Inventory) (a : Nat) :
    countOf (runAdds inv calls) a = countOf inv a + acceptedFor a calls ∧
    (alookup (runAdds inv calls).index a = none ↔
      (alookup inv.index a = none ∧ acceptedFor a calls = 0)) := by
  induction calls generalizing inv with
  | nil => simp [runAdds, acceptedFor]
  | cons c cs ih =>
      have hih := ih (inv.add c.addr c.rss c.otap_sequence c.timestamp).1
      have hstep1 : countOf (runAdds inv (c :: cs)) a =
          countOf (runAdds (inv.add c.addr c.rss c.otap_sequence c.timestamp).1 cs) a := rfl
      have hstep2 : alookup (runAdds inv (c :: cs)).index a =
          alookup (runAdds (inv.add c.addr c.rss c.otap_sequence c.timestamp).1 cs).index a := rfl
      cases hb : (decide (c.addr = a) && acceptedArgs c.rss c.otap_sequence) with
      | true =>
          have hb' := hb
          simp only [Bool.and_eq_true, decide_eq_true_eq] at hb'
          have hself := countOf_add_self inv c.addr c.rss c.otap_sequence c.timestamp hb'.2
          have hfilter : acceptedFor a (c :: cs) = acceptedFor a cs + 1 := by
            simp [acceptedFor, List.filter, hb]
          rw [hb'.1] at hself hih hstep1 hstep2
          constructor
          · rw [hstep1, hih.1, hself.1, hfilter]
            omega
          · rw [hstep2, hih.2, hfilter]
            apply iff_of_false
            · rintro ⟨h1, -⟩
              exact hself.2 h1
            · rintro ⟨-, h2⟩
              omega
      | false =>
          have hfilter : acceptedFor a (c :: cs) = acceptedFor a cs := by
            simp [acceptedFor, List.filter, hb]
          have hpres : alookup (inv.add c.addr c.rss c.otap_sequence c.timestamp).1.index a =
              alookup inv.index a := by
            by_cases haddr : c.addr = a
            · have hacc : acceptedArgs c.rss c.otap_sequence = false := by
                simpa [haddr] using hb
              rw [add_index_rej inv c.addr c.rss c.otap_sequence c.timestamp hacc]
            · exact countOf_add_other inv a c.addr c.rss c.otap_sequence c.timestamp haddr
          constructor
          · rw [hstep1, hih.1, hfilter]
            simp [countOf, hpres]
          · rw [hstep2, hih.2, hfilter, hpres]

/-- C7: starting from a session in which address `a` has no record yet, the
record's `count` after any sequence of `add` calls equals the number of
accepted calls addressed to `a` (the first accepted call creates the record
— it exists exactly when at least one call was accepted — and each later
one adds exactly 1, as the inductive step `countOf_add_self` shows). -/
theorem C7_count_equals_accepted_calls (inv : Inventory) (a : Nat) (calls : List AddCall)
    (h : alookup inv.index a = none) :
    countOf (runAdds inv calls) a = acceptedFor a calls ∧
    (alookup (runAdds inv calls).index a = none ↔ acceptedFor a calls = 0) := by
  have hmain := runAdds_count calls inv a
  constructor
  · rw [hmain.1]
    simp [countOf, h]
  · rw [hmain.2]
    simp [h]

/-- C7 witness: node 1's count after `c7calls` is the number of accepted
calls for node 1, namely 2. -/
theorem C7_count_equals_accepted_calls_witness :
    countOf (runAdds inv0 c7calls) 1 = acceptedFor 1 c7calls ∧ acceptedFor 1 c7calls = 2 :=
  ⟨(C7_count_equals_accepted_calls inv0 1 c7calls rfl).1, by decide⟩

/-!
## C2: `is_complete`
-/

/-- C2 counterexample: with `target_otap_sequence = 0` — set, but falsy —
`is_complete()` returns `True`, so "True iff … `target_otap_sequence` is not
set …" fails: the code tests truthiness, not presence. -/
theorem C2_counterexample :
    ¬ ((cex2.is_complete 0 = Except.ok true) ↔
       (cex2.target_nodes ≠ [] ∧ cex2.target_frequency = PyFreq.inf ∧
        cex2.target_otap_sequence = none ∧
        isSuperset cex2.nodes cex2.target_nodes = true)) := by
  intro h
  have h0 : cex2.target_otap_sequence = none := (h.mp rfl).2.2.1
  exact Option.noConfusion h0

/-- C2 (amended): `is_complete()` returns `True` iff `target_nodes` is
non-empty, `target_frequency` is unbounded, `target_otap_sequence` is unset
*or zero* (falsy), and the observed nodes are a superset of the targets;
every other state — including the raising failure branch — does not return
`True`. -/
theorem C2_is_complete (inv : Inventory) (now : ℚ) :
    inv.is_complete now = Except.ok true ↔
      (inv.target_nodes ≠ [] ∧ inv.target_frequency = PyFreq.inf ∧
       optIntTruthy inv.target_otap_sequence = false ∧
       isSuperset inv.nodes inv.target_nodes = true) := by
  unfold Inventory.is_complete
  cases htn : listTruthy inv.target_nodes with
  | false =>
      have : inv.target_nodes = [] := by
        simpa [listTruthy] using htn
      simp [htn, this]
  | true =>
      have htn' : inv.target_nodes ≠ [] := by
        simpa [listTruthy] using htn
      cases htf : inv.target_frequency with
      | fin n => simp [htn, htf, PyFreq.ltInf]
      | inf =>
          cases hsup : isSuperset inv.nodes inv.target_nodes with
          | false =>
              cases hel : inv.elapsed now with
              | error e => simp [htn, htf, PyFreq.ltInf, hsup, hel, htn']
              | ok q => simp [htn, htf, PyFreq.ltInf, hsup, hel, htn']
          | true =>
              cases hot : optIntTruthy inv.target_otap_sequence with
              | false => simp [htn, htf, PyFreq.ltInf, hsup, hot, htn']
              | true => simp [htn, htf, PyFreq.ltInf, hsup, hot, htn']

/-!
## C3: `is_otaped`
-/

theorem eventOtaped_iff (t : Int) (ev : Event)
    (h : ev.otap_max.isSome = true → ev.otap_min.isSome = true) :
    eventOtaped (some t) ev = true ↔ (ev.otap_min = some t ∨ ev.otap_max = some t) := by
  cases hmn : ev.otap_min with
  | none =>
      cases hmx : ev.otap_max with
      | none => simp [eventOtaped, hmn, hmx]
      | some mx =>
          rw [hmx, hmn] at h
          simp at h
  | some mn =>
      by_cases he : mn = t
      · simp [eventOtaped, hmn, he]
      · cases hmx : ev.otap_max with
        | none => simp [eventOtaped, hmn, hmx, he]
        | some mx => simp [eventOtaped, hmn, hmx, he]

theorem otapedNodesAux_ok (target : Option Int) (index : List (Nat × NodeRecord))
    (h : ∀ p ∈ index, (p.2.events.getLast?).isSome = true) :
    ∃ s, otapedNodesAux target index = .ok s ∧
      ∀ a, a ∈ s ↔ ∃ p ∈ index, p.1 = a ∧
        ∃ ev, p.2.events.getLast? = some ev ∧ eventOtaped target ev = true := by
  induction index with
  | nil => exact ⟨[], rfl, by simp⟩
  | cons p rest ih =>
      obtain ⟨s, hs, hmem⟩ := ih (fun q hq => h q (List.mem_cons_of_mem _ hq))
      obtain ⟨ev, hev⟩ := Option.isSome_iff_exists.mp (h p (List.mem_cons_self _ _))
      refine ⟨if eventOtaped target ev then p.1 :: s else s, ?_, ?_⟩
      · cases p with
        | mk a₀ r₀ => simp only [otapedNodesAux, hev, hs]
      · intro a
        by_cases he : eventOtaped target ev = true
        · rw [if_pos he]
          constructor
          · intro ha
            rcases List.mem_cons.mp ha with h1 | h1
            · exact ⟨p, List.mem_cons_self _ _, h1.symm, ev, hev, he⟩
            · obtain ⟨q, hq, hqa, ev', hev', he'⟩ := (hmem a).mp h1
              exact ⟨q, List.mem_cons_of_mem _ hq, hqa, ev', hev', he'⟩
          · rintro ⟨q, hq, hqa, ev', hev', he'⟩
            rcases List.mem_cons.mp hq with h1 | h1
            · subst h1
              exact hqa ▸ List.mem_cons_self _ _
            · exact List.mem_cons_of_mem _ ((hmem a).mpr ⟨q, h1, hqa, ev', hev', he'⟩)
        · rw [if_neg he]
          constructor
          · intro ha
            obtain ⟨q, hq, hqa, ev', hev', he'⟩ := (hmem a).mp ha
            exact ⟨q, List.mem_cons_of_mem _ hq, hqa, ev', hev', he'⟩
          · rintro ⟨q, hq, hqa, ev', hev', he'⟩
            rcases List.mem_cons.mp hq with h1 | h1
            · subst h1
              rw [hev] at hev'
              cases hev'
              exact absurd he' he
            · exact (hmem a).mpr ⟨q, h1, hqa, ev', hev', he'⟩

/-- C3: `is_otaped()` is true iff the target set is non-empty, the target
otap sequence is set, and every target node's most recent event carries it
as `otap_min` or `otap_max`; earlier events play no role.  The state is
assumed well-formed in the sense of `latestWellFormed` with duplicate-free
dict keys (true of every dict and of everything `add` stores). -/
theorem C3_is_otaped (inv : Inventory) (now : ℚ)
    (hwf : latestWellFormed inv = true)
    (hnodup : (akeys inv.index).Nodup) :
    inv.is_otaped now = Except.ok true ↔
      (inv.target_nodes ≠ [] ∧
       ∃ t, inv.target_otap_sequence = some t ∧
         ∀ a ∈ inv.target_nodes, ∃ ev,
           ((alookup inv.index a).bind (fun r => r.events.getLast?)) = some ev ∧
           (ev.otap_min = some t ∨ ev.otap_max = some t)) := by
  have hlatest : ∀ p ∈ inv.index, ∃ ev, p.2.events.getLast? = some ev ∧
      (ev.otap_max.isSome = true → ev.otap_min.isSome = true) := by
    intro p hp
    have hall := (List.all_eq_true.mp hwf) p hp
    cases hev : p.2.events.getLast? with
    | none => rw [hev] at hall; simp at hall
    | some ev =>
        rw [hev] at hall
        refine ⟨ev, rfl, fun hmax => ?_⟩
        simpa [hmax] using hall
  cases htn : listTruthy inv.target_nodes with
  | false =>
      have htn' : inv.target_nodes = [] := by simpa [listTruthy] using htn
      apply iff_of_false
      · simp [Inventory.is_otaped, htn]
      · rintro ⟨h1, -⟩
        exact h1 htn'
  | true =>
      have htn' : inv.target_nodes ≠ [] := by simpa [listTruthy] using htn
      cases hto : inv.target_otap_sequence with
      | none =>
          apply iff_of_false
          · simp [Inventory.is_otaped, hto]
          · rintro ⟨-, t', ht', -⟩
            exact Option.noConfusion ht'
      | some t =>
          obtain ⟨s, hs, hmem⟩ := otapedNodesAux_ok (some t) inv.index
            (fun p hp => by
              obtain ⟨ev, hev, -⟩ := hlatest p hp
              simp [hev])
          have key : isSuperset s inv.target_nodes = true ↔
              (∀ a ∈ inv.target_nodes, ∃ ev,
                ((alookup inv.index a).bind (fun r => r.events.getLast?)) = some ev ∧
                (ev.otap_min = some t ∨ ev.otap_max = some t)) := by
            rw [isSuperset, List.all_eq_true]
            constructor
            · intro hall a ha
              have := (hmem a).mp (by simpa using hall a ha)
              obtain ⟨p, hp, hpa, ev, hev, he⟩ := this
              obtain ⟨ev₂, hev₂, hwf₂⟩ := hlatest p hp
              rw [hev] at hev₂
              cases hev₂
              have halo : alookup inv.index a = some p.2 := by
                apply alookup_eq_some_of_nodup _ _ _ hnodup
                rw [← hpa]
                exact hp
              refine ⟨ev, ?_, (eventOtaped_iff t ev hwf₂).mp he⟩
              rw [halo]
              simpa using hev
            · intro hall a ha
              obtain ⟨ev, hev, hdisj⟩ := hall a ha
              cases halo : alookup inv.index a with
              | none => rw [halo] at hev; simp at hev
              | some r =>
                  rw [halo] at hev
                  rw [show ((some r).bind fun r => r.events.getLast?) = r.events.getLast?
                    from rfl] at hev
                  have hp : (a, r) ∈ inv.index := alookup_mem _ _ _ halo
                  obtain ⟨ev₂, hev₂, hwf₂⟩ := hlatest (a, r) hp
                  rw [hev] at hev₂
                  cases hev₂
                  simp only [decide_eq_true_eq]
                  exact (hmem a).mpr ⟨(a, r), hp, rfl, ev,
                    hev, (eventOtaped_iff t ev hwf₂).mpr hdisj⟩
          cases hsup : isSuperset s inv.target_nodes with
          | true =>
              apply iff_of_true
              · simp [Inventory.is_otaped, Inventory.otaped_nodes, htn, hto, hs, hsup]
              · exact ⟨htn', t, rfl, key.mp hsup⟩
          | false =>
              apply iff_of_false
              · cases hel : inv.elapsed now <;>
                  simp [Inventory.is_otaped, Inventory.otaped_nodes, htn, hto, hs, hsup, hel]
              · rintro ⟨-, t', ht', hall⟩
                rw [Option.some.injEq] at ht'
                subst ht'
                have hk : isSuperset s inv.target_nodes = true := key.mpr hall
                rw [hsup] at hk
                exact Bool.noConfusion hk

/-- C3 witness: in the spec's scenario `is_otaped()` is true. -/
theorem C3_is_otaped_witness : inv3.is_otaped 0 = Except.ok true := by
  apply (C3_is_otaped inv3 0 rfl (by decide)).mpr
  refine ⟨by decide, 7, rfl, ?_⟩
  intro a ha
  rcases List.mem_cons.mp ha with h | h
  · subst h
    exact ⟨evOtap 3 7, rfl, Or.inr rfl⟩
  · rcases List.mem_cons.mp h with h1 | h1
    · subst h1
      exact ⟨evOtap 7 9, rfl, Or.inl rfl⟩
    · simp at h1

/-!
## C4 and C10: `frequency`, `frequency_by_value`, `is_frequency_reached`
-/

theorem pySorted_mem (l : List Nat) (a : Nat) : a ∈ pySorted l ↔ a ∈ l :=
  (List.perm_insertionSort (· ≤ ·) l).mem_iff

theorem pySorted_sorted (l : List Nat) : List.Sorted (· ≤ ·) (pySorted l) :=
  List.sorted_insertionSort (· ≤ ·) l

theorem freqLoop_ok (inv : Inventory) (ks : List Nat)
    (hks : ∀ a ∈ ks, a ∈ akeys inv.index)
    (hval : ∀ a ∈ ks, ∀ r, alookup inv.index a = some r →
        freqValue inv.target_otap_sequence r = .ok (claimFreqVal inv a)) :
    freqLoop inv.target_otap_sequence inv.index ks =
      .ok (ks.map fun a => (a, claimFreqVal inv a)) := by
  induction ks with
  | nil => rfl
  | cons a rest ih =>
      have hsome : (alookup inv.index a).isSome :=
        (alookup_isSome_iff _ _).mpr (hks a (List.mem_cons_self _ _))
      obtain ⟨r, hr⟩ := Option.isSome_iff_exists.mp hsome
      have h1 := hval a (List.mem_cons_self _ _) r hr
      have h2 := ih (fun x hx => hks x (List.mem_cons_of_mem _ hx))
        (fun x hx => hval x (List.mem_cons_of_mem _ hx))
      simp [freqLoop, hr, h1, h2]

theorem accountForTargetNodes_eq (targets : List Nat) (d : List (Nat × Int))
    (hnd : targets.Nodup) :
    accountForTargetNodes targets d =
      d ++ (targets.filter fun a => (alookup d a).isNone).map (fun a => (a, 0)) := by
  induction targets generalizing d with
  | nil => simp [accountForTargetNodes]
  | cons tg rest ih =>
      rw [List.nodup_cons] at hnd
      have hstep : accountForTargetNodes (tg :: rest) d =
          accountForTargetNodes rest (if (alookup d tg).isSome then d else d ++ [(tg, 0)]) := by
        by_cases h : (alookup d tg).isSome
        · simp [accountForTargetNodes, h]
        · simp [accountForTargetNodes, h]
      rw [hstep]
      by_cases h : (alookup d tg).isSome
      · rw [if_pos h, ih d hnd.2]
        have h0 : (alookup d tg).isNone = false := by
          rcases Option.isSome_iff_exists.mp h with ⟨v, hv⟩
          simp [hv]
        simp [List.filter, h0]
      · rw [if_neg h]
        rw [ih (d ++ [(tg, 0)]) hnd.2]
        have hfil : (rest.filter fun a => (alookup (d ++ [(tg, 0)]) a).isNone) =
            (rest.filter fun a => (alookup d a).isNone) := by
          apply List.filter_congr
          intro x hx
          have hxne : x ≠ tg := fun he => hnd.1 (he ▸ hx)
          rw [alookup_append]
          cases hdx : alookup d x with
          | none => simp [alookup, Ne.symm hxne]
          | some v => simp
        have h0 : (alookup d tg).isNone = true := by
          cases hdt : alookup d tg with
          | none => rfl
          | some v => rw [hdt] at h; simp at h
        rw [hfil]
        simp [List.filter, h0, List.append_assoc]

/-- The keys of the dict `frequency`'s loop builds. -/
theorem akeys_val_map (l : List Nat) (f : Nat → Int) :
    akeys (l.map fun a => (a, f a)) = l := by
  simp [akeys, List.map_map]
  exact List.map_id _

/-- C4 counterexample: observed node 5 (count 2, latest `otap_max = 9`),
target nodes `{3, 5}`, otap target set to 0.  `frequency()` yields the pairs
`[(5, 2), (3, 0)]`: the unobserved target 3 is appended *after* node 5, so
iteration is not in ascending address order, and node 5 maps to its count 2,
not to its latest `otap_max` 9, although the otap target is set. -/
theorem C4_counterexample :
    cex4.frequency = Except.ok [(5, 2), (3, 0)] ∧
    ¬ List.Sorted (· ≤ ·) (akeys [((5 : Nat), (2 : Int)), (3, 0)]) ∧
    cex4.target_otap_sequence ≠ none ∧
    ((alookup cex4.index 5).bind fun r => (r.events.getLast?).bind Event.otap_max) = some 9 ∧
    ((2 : Int) ≠ 9) := by
  refine ⟨rfl, ?_, by decide, rfl, by decide⟩
  intro hs
  have h53 : (5 : Nat) ≤ 3 := by
    have := List.sorted_cons.mp hs
    exact this.1 3 (by simp [akeys])
  omega

/-- C4 (amended): `frequency()` returns the observed nodes in ascending
address order — each mapped to its latest event's `otap_max` when
`target_otap_sequence` is truthy (non-`None` and non-zero) and to its
count otherwise — *followed by* the target nodes not yet observed, each
mapped to 0 (appended after the sorted block, in target-set order, not
merged into the ascending order). -/
theorem C4_frequency (inv : Inventory)
    (htnd : inv.target_nodes.Nodup)
    (hmax : optIntTruthy inv.target_otap_sequence = true → latestHasOtapMax inv = true) :
    inv.frequency = .ok
      ((pySorted (akeys inv.index)).map (fun a => (a, claimFreqVal inv a)) ++
        (inv.target_nodes.filter fun a => decide (a ∉ akeys inv.index)).map (fun a => (a, 0))) ∧
    List.Sorted (· ≤ ·) (pySorted (akeys inv.index)) := by
  refine ⟨?_, pySorted_sorted _⟩
  have hval : ∀ a ∈ pySorted (akeys inv.index), ∀ r, alookup inv.index a = some r →
      freqValue inv.target_otap_sequence r = .ok (claimFreqVal inv a) := by
    intro a _ r hr
    cases hot : optIntTruthy inv.target_otap_sequence with
    | false => simp [freqValue, claimFreqVal, hr, hot]
    | true =>
        have hp : (a, r) ∈ inv.index := alookup_mem _ _ _ hr
        have hall := (List.all_eq_true.mp (hmax hot)) (a, r) hp
        cases hev : r.events.getLast? with
        | none => rw [hev] at hall; simp at hall
        | some ev =>
            rw [hev] at hall
            obtain ⟨v, hv⟩ := Option.isSome_iff_exists.mp hall
            simp [freqValue, claimFreqVal, hr, hot, hev, hv]
  have hloop := freqLoop_ok inv _ (fun a ha => (pySorted_mem _ _).mp ha) hval
  have hacct := accountForTargetNodes_eq inv.target_nodes
    ((pySorted (akeys inv.index)).map fun a => (a, claimFreqVal inv a)) htnd
  unfold Inventory.frequency
  simp only [hloop, hacct]
  congr 1
  congr 1
  apply congrArg (List.map _)
  apply List.filter_congr
  intro x _
  have hkeys : (alookup ((pySorted (akeys inv.index)).map fun a =>
      (a, claimFreqVal inv a)) x).isSome ↔ x ∈ akeys inv.index := by
    rw [alookup_isSome_iff, akeys_val_map, pySorted_mem]
  by_cases hmem : x ∈ akeys inv.index
  · have h1 : (alookup ((pySorted (akeys inv.index)).map fun a =>
        (a, claimFreqVal inv a)) x).isSome = true := (hkeys.mpr hmem)
    cases h2 : alookup ((pySorted (akeys inv.index)).map fun a =>
        (a, claimFreqVal inv a)) x with
    | none => rw [h2] at h1; simp at h1
    | some v => simp [hmem]
  · have h1 : ¬ (alookup ((pySorted (akeys inv.index)).map fun a =>
        (a, claimFreqVal inv a)) x).isSome = true := fun hc => hmem (hkeys.mp hc)
    cases h2 : alookup ((pySorted (akeys inv.index)).map fun a =>
        (a, claimFreqVal inv a)) x with
    | none => simp [hmem]
    | some v => rw [h2] at h1; simp at h1

/-- C4 witness: the amended claim evaluated on `invW4`. -/
theorem C4_frequency_witness :
    invW4.frequency = .ok
      ((pySorted (akeys invW4.index)).map (fun a => (a, claimFreqVal invW4 a)) ++
        (invW4.target_nodes.filter fun a => decide (a ∉ akeys invW4.index)).map (fun a => (a, 0))) ∧
    List.Sorted (· ≤ ·) (pySorted (akeys invW4.index)) :=
  C4_frequency invW4 (by decide) (by decide)

theorem freqLoop_err (target : Option Int) (index : List (Nat × NodeRecord)) (ks : List Nat)
    (hall : ∀ a ∈ ks, ∃ r, alookup index a = some r ∧
        (freqValue target r = .error .keyError ∨ ∃ v, freqValue target r = .ok v))
    (hbad : ∃ a ∈ ks, ∀ r, alookup index a = some r →
        freqValue target r = .error .keyError) :
    freqLoop target index ks = .error .keyError := by
  induction ks with
  | nil =>
      obtain ⟨a, ha, -⟩ := hbad
      simp at ha
  | cons a rest ih =>
      obtain ⟨r, hr, hval⟩ := hall a (List.mem_cons_self _ _)
      rcases hval with herr | ⟨v, hok⟩
      · simp [freqLoop, hr, herr]
      · obtain ⟨b, hb, hbadb⟩ := hbad
        rcases List.mem_cons.mp hb with h1 | h1
        · subst h1
          have := hbadb r hr
          rw [hok] at this
          exact Except.noConfusion this
        · have hrest := ih (fun x hx => hall x (List.mem_cons_of_mem _ hx)) ⟨b, h1, hbadb⟩
          simp [freqLoop, hr, hok, hrest]

theorem fbvLoop_err (target : Option Int) (index : List (Nat × NodeRecord)) (ks : List Nat)
    (hall : ∀ a ∈ ks, ∃ r, alookup index a = some r ∧
        (freqValue target r = .error .keyError ∨ ∃ v, freqValue target r = .ok v))
    (hbad : ∃ a ∈ ks, ∀ r, alookup index a = some r →
        freqValue target r = .error .keyError) :
    ∀ acc, fbvLoop target index ks acc = .error .keyError := by
  induction ks with
  | nil =>
      obtain ⟨a, ha, -⟩ := hbad
      simp at ha
  | cons a rest ih =>
      intro acc
      obtain ⟨r, hr, hval⟩ := hall a (List.mem_cons_self _ _)
      rcases hval with herr | ⟨v, hok⟩
      · simp [fbvLoop, hr, herr]
      · obtain ⟨b, hb, hbadb⟩ := hbad
        rcases List.mem_cons.mp hb with h1 | h1
        · subst h1
          have := hbadb r hr
          rw [hok] at this
          exact Except.noConfusion this
        · have hrest := ih (fun x hx => hall x (List.mem_cons_of_mem _ hx)) ⟨b, h1, hbadb⟩
          simp [fbvLoop, hr, hok, hrest]

/-- C10 counterexample: the claim's premises hold (truthy otap target,
observed node 4's latest event lacks `otap_max`), `frequency()` does raise
`KeyError`, but `is_frequency_reached()` returns `False` instead of raising:
its empty-target guard returns before `frequency()` is ever called. -/
theorem C10_counterexample :
    optIntTruthy cex10.target_otap_sequence = true ∧
    ((alookup cex10.index 4).bind fun r => r.events.getLast?) = some evRss ∧
    evRss.otap_max = none ∧
    cex10.frequency = Except.error PyErr.keyError ∧
    cex10.is_frequency_reached = Except.ok false :=
  ⟨rfl, rfl, rfl, rfl, rfl⟩

/-- C10 (amended): when the otap target is truthy and some observed node's
latest stored event lacks `otap_max` (all records having a latest event and
dict keys being unique), `frequency()` and `frequency_by_value()` raise
`KeyError`; `is_frequency_reached()` raises `KeyError` when `target_nodes`
is non-empty and returns `False` (without evaluating any frequency) when it
is empty. -/
theorem C10_missing_otap_max (inv : Inventory)
    (hot : optIntTruthy inv.target_otap_sequence = true)
    (hsome : allLatestSome inv = true)
    (hbad : someLatestLacksOtapMax inv = true)
    (hnodup : (akeys inv.index).Nodup) :
    inv.frequency = Except.error PyErr.keyError ∧
    inv.frequency_by_value = Except.error PyErr.keyError ∧
    inv.is_frequency_reached =
      (if inv.target_nodes = [] then Except.ok false else Except.error PyErr.keyError) := by
  have hall : ∀ a ∈ pySorted (akeys inv.index), ∃ r, alookup inv.index a = some r ∧
      (freqValue inv.target_otap_sequence r = .error .keyError ∨
       ∃ v, freqValue inv.target_otap_sequence r = .ok v) := by
    intro a ha
    have hsome' : (alookup inv.index a).isSome :=
      (alookup_isSome_iff _ _).mpr ((pySorted_mem _ _).mp ha)
    obtain ⟨r, hr⟩ := Option.isSome_iff_exists.mp hsome'
    refine ⟨r, hr, ?_⟩
    have hp : (a, r) ∈ inv.index := alookup_mem _ _ _ hr
    have hl := (List.all_eq_true.mp hsome) (a, r) hp
    obtain ⟨ev, hev⟩ := Option.isSome_iff_exists.mp hl
    cases hmx : ev.otap_max with
    | none => exact Or.inl (by simp [freqValue, hot, hev, hmx])
    | some v => exact Or.inr ⟨v, by simp [freqValue, hot, hev, hmx]⟩
  have hbad' : ∃ a ∈ pySorted (akeys inv.index), ∀ r, alookup inv.index a = some r →
      freqValue inv.target_otap_sequence r = .error .keyError := by
    obtain ⟨p, hp, hpbad⟩ := List.any_eq_true.mp hbad
    refine ⟨p.1, (pySorted_mem _ _).mpr (List.mem_map_of_mem Prod.fst hp), ?_⟩
    intro r hr
    have halo : alookup inv.index p.1 = some p.2 := by
      apply alookup_eq_some_of_nodup _ _ _ hnodup
      cases p
      exact hp
    rw [halo] at hr
    cases hr
    cases hev : p.2.events.getLast? with
    | none => rw [hev] at hpbad; simp at hpbad
    | some ev =>
        rw [hev] at hpbad
        simp at hpbad
        simp [freqValue, hot, hev, hpbad]
  have hfreq : inv.frequency = Except.error PyErr.keyError := by
    unfold Inventory.frequency
    simp [freqLoop_err inv.target_otap_sequence inv.index _ hall hbad']
  have hfbv : inv.frequency_by_value = Except.error PyErr.keyError := by
    unfold Inventory.frequency_by_value
    simp [fbvLoop_err inv.target_otap_sequence inv.index _ hall hbad' []]
  refine ⟨hfreq, hfbv, ?_⟩
  cases htn : listTruthy inv.target_nodes with
  | false =>
      have htn' : inv.target_nodes = [] := by simpa [listTruthy] using htn
      simp [Inventory.is_frequency_reached, listTruthy, htn']
  | true =>
      have htn' : inv.target_nodes ≠ [] := by simpa [listTruthy] using htn
      simp [Inventory.is_frequency_reached, htn, htn', hfreq]

/-- C10 witness: on `cex10b` all three operations raise `KeyError`. -/
theorem C10_missing_otap_max_witness :
    cex10b.frequency = Except.error PyErr.keyError ∧
    cex10b.frequency_by_value = Except.error PyErr.keyError ∧
    cex10b.is_frequency_reached =
      (if cex10b.target_nodes = [] then Except.ok false else Except.error PyErr.keyError) :=
  C10_missing_otap_max cex10b rfl rfl rfl (by decide)

/-!
## C5: message routing
-/

/-- C5: every dispatched item gets the generic received-packets write first;
the rest of the dispatch agrees with the fixed kind-to-handler table
`kindTable`, which issues exactly one kind-specific write for each of the
seven known kinds and none for an unmatched kind (which therefore still
gets the generic write). -/
theorem C5_map_message :
    (∀ m, map_message m = Write.received_packets :: kindTable m) ∧
    (∀ m, m = MessageKind.other ∨ (kindTable m).length = 1) ∧
    kindTable MessageKind.other = [] := by
  refine ⟨fun m => ?_, fun m => ?_, rfl⟩
  · cases m <;> rfl
  · cases m <;> simp [kindTable]

/-!
## C6: supervisor liveness polling
-/

/-- C6: with the default pool (`n_workers = 10`), every value the spawn loop
stores in the workers dict is `None` (`Process(...).start()` returns `None`),
so the supervisor's first liveness pass raises `AttributeError` instead of
checking liveness — `exit_signal` is never set by the supervisor. -/
theorem C6_supervisor_poll_crashes :
    (∀ w ∈ spawnedWorkers 10, w.2 = none) ∧
    waitForExitPoll (spawnedWorkers 10) = Except.error PyErr.attributeError := by
  constructor
  · decide
  · rfl

/-!
## C8: `is_out_of_time`
-/

/-- C8: with a set deadline, `is_out_of_time()` is true iff `now >= deadline`
(the boundary is inclusive): false one second before the deadline, true at
the deadline itself. -/
theorem C8_is_out_of_time (inv : Inventory) (d now : ℚ) (h : inv.deadline = some d) :
    (inv.is_out_of_time now = Except.ok true ↔ d ≤ now) ∧
    inv.is_out_of_time (d - 1) = Except.ok false ∧
    inv.is_out_of_time d = Except.ok true := by
  refine ⟨?_, ?_, ?_⟩
  · simp [Inventory.is_out_of_time, h, Inventory.untilDeadline, sub_nonpos]
  · simp only [Inventory.is_out_of_time, h, Inventory.untilDeadline]
    have h2 : ¬ (d - (d - 1) ≤ 0) := by
      have h1 : d - (d - 1) = 1 := by ring
      rw [h1]; norm_num
    rw [decide_eq_false h2]
  · simp [Inventory.is_out_of_time, h, Inventory.untilDeadline]

/-- C8 witness: the theorem applied at deadline 10, probe time 7. -/
theorem C8_is_out_of_time_witness :
    (invD.is_out_of_time 7 = Except.ok true ↔ (10:ℚ) ≤ 7) ∧
    invD.is_out_of_time ((10:ℚ) - 1) = Except.ok false ∧
    invD.is_out_of_time 10 = Except.ok true :=
  C8_is_out_of_time invD 10 7 rfl

end BackendClient


